import Mathlib

/-!
Verification of the action/operation lifecycle engine of `state/action.go`
(juju). The Go code is shallowly embedded: documents become structures,
mongo/txn transactions become explicit transaction values with an `apply`
function that checks each assertion against a store state, and the
`buildTxn` closures become pure functions of the snapshot they read.
Times are modelled as natural numbers (seconds), the external sequence and
UUID sources as explicit `Except`-valued parameters.
-/

/-- `ActionStatus` from state/action.go: the possible states of an action. -/
inductive ActionStatus
  | failed
  | completed
  | cancelled
  | pending
  | running
deriving DecidableEq, Repr

/-- The Go string value of each status (`ActionStatus` is a string type). -/
def statusStr : ActionStatus → String
  | .failed => "failed"
  | .completed => "completed"
  | .cancelled => "cancelled"
  | .pending => "pending"
  | .running => "running"

/-- The condition used to count complete tasks in `removeAndLog`:
`status != ActionPending && status != ActionRunning`. -/
def isTerminalStatus (s : ActionStatus) : Bool :=
  !(s == .pending) && !(s == .running)

/-- The `assertNotComplete` condition of `removeAndLog`: the status is not in
`[ActionCompleted, ActionCancelled, ActionFailed]` (mongo `$nin`). -/
def notInTerminalSet (s : ActionStatus) : Bool :=
  !([ActionStatus.completed, .cancelled, .failed].contains s)

/-- Errors surfaced by the embedded operations, mirroring the juju/errors
kinds used in state/action.go: `errors.NotFoundf`, `errors.Annotatef`,
`ErrDead`, and plain errors (`errors.Errorf` / txn failures). -/
inductive JujuError
  | notFound (what : String)
  | annotated (msg : String) (cause : String)
  | errDead
  | generic (msg : String)
deriving DecidableEq, Repr

/-- `errors.IsNotFound`: recognises exactly the not-found kind. -/
def isNotFoundErr : JujuError → Bool
  | .notFound _ => true
  | _ => false

/-- go `intCompare` as used by version.Number.Compare. -/
def intCompare (a b : Int) : Int :=
  if a < b then -1 else if a = b then 0 else 1

/-- `version.Number` of github.com/juju/version, consumed by
`IsNewActionIDSupported`. -/
structure VersionNumber where
  major : Int
  minor : Int
  tag : String
  patch : Int
  build : Int
deriving DecidableEq, Repr

/-- `version.Number.Compare`: majors, then minors, then tags (an empty tag
sorts after a non-empty one), then patches, then builds. -/
def versionCompare (v w : VersionNumber) : Int :=
  if v.major ≠ w.major then intCompare v.major w.major
  else if v.minor ≠ w.minor then intCompare v.minor w.minor
  else if v.tag ≠ w.tag then
    (if v.tag = "" then 1
     else if w.tag = "" then -1
     else if v.tag < w.tag then -1 else 1)
  else if v.patch ≠ w.patch then intCompare v.patch w.patch
  else if v.build ≠ w.build then intCompare v.build w.build
  else 0

/-- `MinVersionSupportNewActionID = version.MustParse("2.6.999")`. -/
def minVersionSupportNewActionID : VersionNumber :=
  { major := 2, minor := 6, tag := "", patch := 999, build := 0 }

/-- `IsNewActionIDSupported(ver)`:
`ver.Compare(MinVersionSupportNewActionID) >= 0`. -/
def isNewActionIDSupported (ver : VersionNumber) : Bool :=
  versionCompare ver minVersionSupportNewActionID ≥ 0

/-- Tag kinds relevant to `newActionDoc`: only `names.UnitTagKind` is
distinguished. -/
inductive TagKind
  | unit
  | machine
  | other
deriving DecidableEq, Repr

/-- A receiver tag: kind plus `Id()`. -/
structure Tag where
  kind : TagKind
  id : String
deriving DecidableEq, Repr

/-- `ensureSuffixFn(actionMarker)`: append `"_a_"` unless already a suffix. -/
def ensureActionMarker (p : String) : String :=
  if p.endsWith "_a_" then p else p ++ "_a_"

/-- `mb.docID(localId)`: the model-UUID-qualified document id. -/
def mkDocID (modelUUID localId : String) : String :=
  modelUUID ++ ":" ++ localId

/-- `st.localID(docId)`: strip this model's UUID qualifier. -/
def localIDOf (modelUUID docId : String) : String :=
  if docId.startsWith (modelUUID ++ ":") then
    docId.drop (modelUUID ++ ":").length
  else docId

/-- `actionDoc` (the fields `newActionDoc` sets). -/
structure ActionDocG where
  docId : String
  modelUUID : String
  receiver : String
  name : String
  enqueued : Nat
  operation : String
  status : ActionStatus
deriving DecidableEq, Repr

/-- `actionNotificationDoc`. -/
structure ActionNotificationDoc where
  docId : String
  modelUUID : String
  receiver : String
  actionID : String
deriving DecidableEq, Repr

/-- `newActionDoc`: chooses the action's local id (sequence-backed decimal
for unit receivers on new-enough agent versions, otherwise a UUID), then
builds the action document (status Pending) and its notification document.
The store-backed sequence (`sequenceWithMin`) and UUID generator
(`NewUUID`) are external id sources, passed in as `Except`-valued
functions; their failures abort with the underlying error. -/
def newActionDoc (seq : String → Nat → Except String Nat)
    (newUUID : Except String String) (modelUUID : String) (now : Nat)
    (operationID : String) (receiverTag : Tag) (actionName : String)
    (modelAgentVersion : VersionNumber) :
    Except String (ActionDocG × ActionNotificationDoc) :=
  let pfx := ensureActionMarker receiverTag.id
  let idRes : Except String String :=
    if receiverTag.kind = TagKind.unit ∧
        isNewActionIDSupported modelAgentVersion then
      match seq "task" 1 with
      | .error e => .error e
      | .ok n => .ok (toString n)
    else
      match newUUID with
      | .error e => .error e
      | .ok u => .ok u
  match idRes with
  | .error e => .error e
  | .ok actionId =>
      .ok ({ docId := mkDocID modelUUID actionId
             modelUUID := modelUUID
             receiver := receiverTag.id
             name := actionName
             enqueued := now
             operation := operationID
             status := .pending },
           { docId := mkDocID modelUUID (pfx ++ actionId)
             modelUUID := modelUUID
             receiver := receiverTag.id
             actionID := actionId })

/-- The two filter shapes `FindActionTagsById` can build: a `^matchValue`
regular-expression match (id-qualified document ids sharing the queried
value as a leading segment) or an exact `_id` match. -/
inductive IdFilter
  | byIdRegex (p : String)
  | byIdExact (v : String)
deriving DecidableEq, Repr

/-- `strings.ContainsAny(idValue, "-abcdef")`. -/
def containsAnyLegacyChars (s : String) : Bool :=
  s.toList.any (fun c => "-abcdef".toList.contains c)

/-- The filter selection of `FindActionTagsById`: a regex match on
`^docID(idValue)` when new ids are unsupported or the value looks like a
legacy id, otherwise an exact match on `docID(idValue)`. -/
def findFilter (modelUUID idValue : String) (agentVersion : VersionNumber) :
    IdFilter :=
  let matchValue := mkDocID modelUUID idValue
  if ¬ isNewActionIDSupported agentVersion = true ∨
      containsAnyLegacyChars idValue = true then
    IdFilter.byIdRegex matchValue
  else
    IdFilter.byIdExact matchValue

/-- Evaluate a filter against a stored `_id` (`^p` matches leading text). -/
def filterMatches (f : IdFilter) (docId : String) : Bool :=
  match f with
  | .byIdRegex p => docId.startsWith p
  | .byIdExact v => docId == v

/-- `FindActionTagsById` over the list of stored action `_id`s: keep the
documents the filter matches, strip the model qualifier, and keep only
local ids that pass `names.IsValidAction` (an external shape check,
passed in as the predicate `valid`); each survivor becomes a tag. -/
def findActionTagsById (valid : String → Bool) (modelUUID : String)
    (docs : List String) (idValue : String)
    (agentVersion : VersionNumber) : List String :=
  ((docs.filter
      (filterMatches (findFilter modelUUID idValue agentVersion))).map
    (localIDOf modelUUID)).filter valid

/-- The four transaction operations `EnqueueAction` submits. -/
inductive EnqTxnOp
  | assertAliveReceiver (coll : String) (id : String)
  | assertOperationExists (docId : String)
  | insertAction (doc : ActionDocG)
  | insertNotification (doc : ActionNotificationDoc)
deriving DecidableEq, Repr

/-- The `ops` slice of `EnqueueAction`: assert the receiver is not dead,
assert the parent operation document exists, insert the action document,
insert the notification document. -/
def enqueueOps (receiverColl receiverId opDocId : String)
    (doc : ActionDocG) (ndoc : ActionNotificationDoc) : List EnqTxnOp :=
  [EnqTxnOp.assertAliveReceiver receiverColl receiverId,
   EnqTxnOp.assertOperationExists opDocId,
   EnqTxnOp.insertAction doc,
   EnqTxnOp.insertNotification ndoc]

/-- The `buildTxn` closure of `EnqueueAction`. `isNotDeadRes` is the result
of the `isNotDead` liveness probe, `opLookup` the result of re-reading the
parent operation (only consulted on attempts after the first). -/
def enqueueBuildTxn (isNotDeadRes : Except JujuError Bool)
    (opLookup : Except JujuError Unit) (ops : List EnqTxnOp)
    (attempt : Nat) : Except JujuError (List EnqTxnOp) :=
  match isNotDeadRes with
  | .error e => .error e
  | .ok notDead =>
      if ¬ notDead = true then .error .errDead
      else if attempt ≠ 0 then
        match opLookup with
        | .error e => .error e
        | .ok _ =>
            .error (.generic ("unexpected attempt number " ++
              toString attempt))
      else .ok ops

/-- Modelled from the spec: the operation entity (state/operation.go is not
under src/). `removeAndLog` and `Begin` read its `doc.Status`,
`doc.CompleteTaskCount` and the loaded per-child `taskStatus` snapshot;
the spec gives the fields status, started/completed timestamps and the
complete-task count, with the children's statuses loaded alongside. -/
structure OperationState where
  status : ActionStatus
  started : Nat
  completed : Nat
  completeTaskCount : Nat
  taskStatus : List ActionStatus
deriving DecidableEq, Repr

/-- Modelled from the spec: `statusCompletedOrder` (state/operation.go is
not under src/), the fixed abnormal-outcome-first precedence list used to
aggregate child statuses, in which Failed outranks Cancelled outranks
Completed. -/
def statusCompletedOrder : List ActionStatus :=
  [.failed, .cancelled, .completed]

/-- A progress log entry (`ActionMessage`). -/
structure ActionMessageM where
  messageValue : String
  timestampValue : Nat
deriving DecidableEq, Repr

/-- The store state the claims touch: the finishing/beginning action's own
document fields, the presence of its notification record, and the parent
operation document (`none` when the action has no parent operation
document in the store). -/
structure StoreState where
  actionStatus : ActionStatus
  actionStarted : Nat
  actionCompleted : Nat
  actionMessage : String
  actionResults : List (String × String)
  actionLogs : List ActionMessageM
  notifExists : Bool
  operation : Option OperationState
deriving DecidableEq, Repr

/-- The fields of an action as re-read by `m.Action(a.Id())`. -/
structure ActionView where
  status : ActionStatus
  started : Nat
  completed : Nat
  message : String
  results : List (String × String)
  logs : List ActionMessageM
deriving DecidableEq, Repr

/-- Read the action document back out of the store. -/
def readAction (st : StoreState) : ActionView :=
  { status := st.actionStatus
    started := st.actionStarted
    completed := st.actionCompleted
    message := st.actionMessage
    results := st.actionResults
    logs := st.actionLogs }

/-- `m.Operation(id)` over our store: the parent operation document, or a
distinguished not-found error when it does not exist. -/
def lookupOperation (st : StoreState) : Except JujuError OperationState :=
  match st.operation with
  | some o => .ok o
  | none => .error (.notFound "operation")

/-- The transaction `Begin` builds: the action op asserts status Pending
and sets status Running plus `started`; `updateOperation` records whether
the operation op (assert Pending, set Running plus `started`) was added,
which happens exactly when the parent operation was found and its snapshot
status is Pending. -/
structure BeginTxn where
  startedTime : Nat
  updateOperation : Bool
deriving DecidableEq, Repr

/-- The `buildTxn` closure of `Begin`, as a function of the parent
operation snapshot (`none` when the parent lookup was not-found). -/
def beginBuildTxn (parentOperation : Option OperationState)
    (startedTime : Nat) : BeginTxn :=
  { startedTime := startedTime
    updateOperation :=
      match parentOperation with
      | some o => o.status == .pending
      | none => false }

/-- Apply a `Begin` transaction to the store: every assertion is checked
against the current store state; any failed assertion aborts the whole
transaction with no effect. -/
def applyBeginTxn (st : StoreState) (t : BeginTxn) : Option StoreState :=
  if st.actionStatus = .pending then
    if t.updateOperation then
      match st.operation with
      | some o =>
          if o.status = .pending then
            some { st with
                    actionStatus := .running
                    actionStarted := t.startedTime
                    operation := some { o with
                                         status := .running
                                         started := t.startedTime } }
          else none
      | none => none
    else
      some { st with actionStatus := .running
                     actionStarted := t.startedTime }
  else none

/-- `Begin` given the result of the parent-operation lookup: a not-found
lookup error is tolerated (the parent is treated as absent), any other
lookup error aborts; then the transaction is built, applied, and on
success the action is re-read from the new store state. -/
def beginActionWith (opLookup : Except JujuError OperationState)
    (st : StoreState) (now : Nat) :
    Except JujuError (StoreState × ActionView) :=
  match opLookup with
  | .error e =>
      if isNotFoundErr e then
        match applyBeginTxn st (beginBuildTxn none now) with
        | none => .error (.generic "state changing too quickly; try again soon")
        | some st2 => .ok (st2, readAction st2)
      else .error e
  | .ok o =>
      match applyBeginTxn st (beginBuildTxn (some o) now) with
      | none => .error (.generic "state changing too quickly; try again soon")
      | some st2 => .ok (st2, readAction st2)

/-- `action.Begin()`: look the parent operation up in the store itself. -/
def beginAction (st : StoreState) (now : Nat) :
    Except JujuError (StoreState × ActionView) :=
  beginActionWith (lookupOperation st) st now

/-- `numComplete` of `removeAndLog`: how many of the parent operation's
tasks already have a status other than Pending/Running. -/
def countComplete (tasks : List ActionStatus) : Nat :=
  (tasks.filter (fun s => isTerminalStatus s)).length

/-- The operation op `removeAndLog` may add: either the final promotion
(assert the operation status is not terminal; set the aggregated status,
the completed time and the new complete-task count) or the plain counter
advance (assert the stored complete-task count still equals the snapshot
value; set the new count). -/
inductive OperationOp
  | completeOp (finalOperationStatus : ActionStatus) (completedTime : Nat)
      (newCount : Nat)
  | bumpCount (assertCount : Nat) (newCount : Nat)
deriving DecidableEq, Repr

/-- The transaction `Finish`/`removeAndLog` builds: the action op asserts
the status is not terminal and sets status/message/results/completed; the
notification document is removed; `opUpdate` is the optional parent
operation op. -/
structure FinishTxn where
  finalStatus : ActionStatus
  message : String
  results : List (String × String)
  completedTime : Nat
  opUpdate : Option OperationOp
deriving DecidableEq, Repr

/-- The `buildTxn` closure of `removeAndLog`, as a function of the parent
operation snapshot. With a parent present it gathers the set of statuses
consisting of the status being applied and every task's current status,
counts the complete tasks, and either performs the final promotion (when
every other task is complete) — picking the first status of
`statusCompletedOrder` present in the gathered set, defaulting to the
status being applied — or advances the counter under an assertion on the
snapshot's complete-task count. -/
def removeAndLogBuildTxn (parentOperation : Option OperationState)
    (finalStatus : ActionStatus) (results : List (String × String))
    (message : String) (completedTime : Nat) : FinishTxn :=
  let opUpdate : Option OperationOp :=
    match parentOperation with
    | none => none
    | some p =>
        let tasks := p.taskStatus
        let statusStats := finalStatus :: tasks
        let numComplete := countComplete tasks
        if (numComplete : Int) = (tasks.length : Int) - 1 then
          let finalOperationStatus :=
            (statusCompletedOrder.find?
              (fun s => decide (s ∈ statusStats))).getD finalStatus
          some (.completeOp finalOperationStatus completedTime
            (numComplete + 1))
        else
          some (.bumpCount p.completeTaskCount (numComplete + 1))
  { finalStatus := finalStatus
    message := message
    results := results
    completedTime := completedTime
    opUpdate := opUpdate }

/-- Apply an operation op to the stored operation document, checking its
assertion. -/
def applyOperationOp (p : OperationState) :
    OperationOp → Option OperationState
  | .completeOp s t n =>
      if notInTerminalSet p.status then
        some { p with status := s, completed := t, completeTaskCount := n }
      else none
  | .bumpCount c n =>
      if p.completeTaskCount = c then
        some { p with completeTaskCount := n }
      else none

/-- Apply a `Finish` transaction to the store: the action's not-terminal
assertion, the notification removal and the optional operation op all
commit together or not at all. -/
def applyFinishTxn (st : StoreState) (t : FinishTxn) : Option StoreState :=
  if notInTerminalSet st.actionStatus then
    let base := { st with
                   actionStatus := t.finalStatus
                   actionMessage := t.message
                   actionResults := t.results
                   actionCompleted := t.completedTime
                   notifExists := false }
    match t.opUpdate with
    | none => some base
    | some opOp =>
        match st.operation with
        | none => none
        | some p =>
            match applyOperationOp p opOp with
            | none => none
            | some p2 => some { base with operation := some p2 }
  else none

/-- `Finish`/`removeAndLog` given the result of the parent-operation
lookup: not-found is tolerated, other lookup errors abort; then the
transaction is built, applied, and on success the action is re-read. -/
def finishActionWith (opLookup : Except JujuError OperationState)
    (st : StoreState) (finalStatus : ActionStatus)
    (results : List (String × String)) (message : String) (now : Nat) :
    Except JujuError (StoreState × ActionView) :=
  match opLookup with
  | .error e =>
      if isNotFoundErr e then
        match applyFinishTxn st
            (removeAndLogBuildTxn none finalStatus results message now) with
        | none => .error (.generic "state changing too quickly; try again soon")
        | some st2 => .ok (st2, readAction st2)
      else .error e
  | .ok o =>
      match applyFinishTxn st
          (removeAndLogBuildTxn (some o) finalStatus results message now) with
      | none => .error (.generic "state changing too quickly; try again soon")
      | some st2 => .ok (st2, readAction st2)

/-- `action.Finish(results)`: look the parent operation up in the store
itself. -/
def finishAction (st : StoreState) (finalStatus : ActionStatus)
    (results : List (String × String)) (message : String) (now : Nat) :
    Except JujuError (StoreState × ActionView) :=
  finishActionWith (lookupOperation st) st finalStatus results message now

/-- The `buildTxn` closure of `Log`: on attempts after the first the
action is re-fetched (`fetch`), otherwise the originally read action is
used; a non-Running status is a descriptive error, otherwise the push op
(message plus UTC second-resolution timestamp) is returned. -/
def logBuildTxn (fetch : Nat → Except JujuError StoreState)
    (orig : StoreState) (message : String) (now : Nat) (attempt : Nat) :
    Except JujuError (String × Nat) :=
  let cur : Except JujuError StoreState :=
    if attempt > 0 then fetch attempt else .ok orig
  match cur with
  | .error e => .error e
  | .ok a =>
      if a.actionStatus ≠ .running then
        .error (.generic ("cannot log message to task with status " ++
          statusStr a.actionStatus))
      else .ok (message, now)

/-- Apply a `Log` push op: the commit is guarded by an assertion that the
stored status is still Running. -/
def applyLogTxn (st : StoreState) (m : String × Nat) : Option StoreState :=
  if st.actionStatus = .running then
    some { st with actionLogs :=
            st.actionLogs ++ [{ messageValue := m.1, timestampValue := m.2 }] }
  else none

/-- `action.Log(message)` (first attempt): if the already-loaded log holds
more than 1000 entries the append is dropped with a warning and no error;
otherwise the transaction is built from the loaded action and applied. -/
def actionLogStep (st : StoreState) (message : String) (now : Nat) :
    Except JujuError StoreState :=
  if st.actionLogs.length > 1000 then .ok st
  else
    match logBuildTxn (fun _ => .ok st) st message now 0 with
    | .error e => .error e
    | .ok m =>
        match applyLogTxn st m with
        | none => .error (.generic "state changing too quickly; try again soon")
        | some st2 => .ok st2

/-- `m.Action(id)`: a missing document is a distinguished not-found error,
any other read error is returned annotated with the id being fetched. -/
def modelAction (dbRead : Except String (Option ActionView)) (id : String) :
    Except JujuError ActionView :=
  match dbRead with
  | .error e => .error (.annotated ("cannot get action " ++ id) e)
  | .ok none => .error (.notFound ("action " ++ id ++ " not found"))
  | .ok (some d) => .ok d

/-- The notification lifecycle property: the notification record exists
exactly while the action is not yet terminal. -/
def notifLifecycleInv (st : StoreState) : Prop :=
  st.notifExists = true ↔ isTerminalStatus st.actionStatus = false

/-- The store state holding the two documents `EnqueueAction` inserts: the
action document's fields plus a present notification record. -/
def stateFromEnqueue (d : ActionDocG) (opS : Option OperationState) :
    StoreState :=
  { actionStatus := d.status
    actionStarted := 0
    actionCompleted := 0
    actionMessage := ""
    actionResults := []
    actionLogs := []
    notifExists := true
    operation := opS }

/-! Helper lemmas. -/

theorem find?_congr_pred {α : Type} (p q : α → Bool) (l : List α)
    (h : ∀ x ∈ l, p x = q x) : l.find? p = l.find? q := by
  induction l with
  | nil => rfl
  | cons a l ih =>
      have ha := h a (by simp)
      simp only [List.find?_cons, ha]
      cases hq : q a with
      | true => rfl
      | false => exact ih (fun x hx => h x (by simp [hx]))

theorem find?_isSome_of_mem {α : Type} (p : α → Bool) (l : List α) (a : α)
    (ha : a ∈ l) (hp : p a = true) : ∃ b, l.find? p = some b := by
  induction l with
  | nil => cases ha
  | cons x l ih =>
      simp only [List.find?_cons]
      cases hx : p x with
      | true => exact ⟨x, rfl⟩
      | false =>
          rcases List.mem_cons.mp ha with h | h
          · subst h; rw [hx] at hp; cases hp
          · exact ih h

theorem statusCompletedOrder_terminal :
    ∀ s ∈ statusCompletedOrder, isTerminalStatus s = true := by decide

theorem mem_statusCompletedOrder_of_terminal (s : ActionStatus)
    (h : isTerminalStatus s = true) : s ∈ statusCompletedOrder := by
  cases s <;> revert h <;> decide

theorem notInTerminalSet_eq (s : ActionStatus) :
    notInTerminalSet s = !isTerminalStatus s := by
  cases s <;> rfl

theorem aggregate_scan_eq (fs : ActionStatus) (tasks : List ActionStatus) :
    statusCompletedOrder.find? (fun s => decide (s ∈ fs :: tasks)) =
      statusCompletedOrder.find?
        (fun s => decide (s ∈ fs :: tasks.filter
          (fun x => isTerminalStatus x))) := by
  apply find?_congr_pred
  intro x hx
  have hterm := statusCompletedOrder_terminal x hx
  rw [decide_eq_decide]
  simp only [List.mem_cons, List.mem_filter, hterm, and_true]

theorem beginAction_spec (st : StoreState) (now : Nat)
    (hpend : st.actionStatus = .pending) :
    ∃ st2, beginAction st now = .ok (st2, readAction st2) ∧
      st2.actionStatus = .running ∧ st2.actionStarted = now ∧
      st2.actionLogs = st.actionLogs ∧ st2.notifExists = st.notifExists ∧
      st2.actionCompleted = st.actionCompleted ∧
      st2.actionMessage = st.actionMessage ∧
      st2.actionResults = st.actionResults ∧
      (∀ o, st.operation = some o → o.status = .pending →
          st2.operation = some { o with status := .running, started := now }) ∧
      (∀ o, st.operation = some o → o.status ≠ .pending →
          st2.operation = st.operation) ∧
      (st.operation = none → st2.operation = none) := by
  cases hop : st.operation with
  | none =>
      refine ⟨{ st with
                 actionStatus := .running
                 actionStarted := now },
        ?_, rfl, rfl, rfl, rfl, rfl, rfl, rfl, ?_, ?_, fun _ => hop⟩
      · simp [beginAction, beginActionWith, lookupOperation, hop,
          isNotFoundErr, applyBeginTxn, beginBuildTxn, hpend, readAction]
      · intro o ho; simp at ho
      · intro o ho; simp at ho
  | some o =>
      by_cases hos : o.status = .pending
      · refine ⟨{ st with
                   actionStatus := .running
                   actionStarted := now
                   operation := some { o with
                                        status := .running
                                        started := now } },
          ?_, rfl, rfl, rfl, rfl, rfl, rfl, rfl, ?_, ?_, ?_⟩
        · simp [beginAction, beginActionWith, lookupOperation, hop,
            applyBeginTxn, beginBuildTxn, hpend, hos, readAction]
        · intro o2 ho2 _
          cases ho2
          rfl
        · intro o2 ho2 hne
          cases ho2
          exact absurd hos hne
        · intro hc; simp at hc
      · refine ⟨{ st with
                   actionStatus := .running
                   actionStarted := now },
          ?_, rfl, rfl, rfl, rfl, rfl, rfl, rfl, ?_, ?_, ?_⟩
        · simp [beginAction, beginActionWith, lookupOperation, hop,
            applyBeginTxn, beginBuildTxn, hpend, hos, readAction]
        · intro o2 ho2 hpo
          cases ho2
          exact absurd hpo hos
        · intro o2 ho2 _
          exact hop
        · intro hc; simp at hc

theorem finishAction_spec (st : StoreState) (fs : ActionStatus)
    (res : List (String × String)) (msg : String) (now : Nat)
    (hnt : notInTerminalSet st.actionStatus = true)
    (hop : ∀ o, st.operation = some o → notInTerminalSet o.status = true) :
    ∃ st2, finishAction st fs res msg now = .ok (st2, readAction st2) ∧
      st2.actionStatus = fs ∧ st2.actionMessage = msg ∧
      st2.actionResults = res ∧ st2.actionCompleted = now ∧
      st2.notifExists = false ∧ st2.actionLogs = st.actionLogs ∧
      (st.operation = none → st2.operation = none) := by
  cases hopc : st.operation with
  | none =>
      refine ⟨{ st with
                 actionStatus := fs
                 actionMessage := msg
                 actionResults := res
                 actionCompleted := now
                 notifExists := false },
        ?_, rfl, rfl, rfl, rfl, rfl, rfl, fun _ => hopc⟩
      simp [finishAction, finishActionWith, lookupOperation, hopc,
        isNotFoundErr, applyFinishTxn, removeAndLogBuildTxn, hnt, readAction]
  | some p =>
      have hps := hop p hopc
      by_cases hbr : (countComplete p.taskStatus : Int) =
          (p.taskStatus.length : Int) - 1
      · refine ⟨{ st with
                   actionStatus := fs
                   actionMessage := msg
                   actionResults := res
                   actionCompleted := now
                   notifExists := false
                   operation := some { p with
                     status := (statusCompletedOrder.find?
                       (fun s => decide (s ∈ fs :: p.taskStatus))).getD fs
                     completed := now
                     completeTaskCount := countComplete p.taskStatus + 1 } },
          ?_, rfl, rfl, rfl, rfl, rfl, rfl, ?_⟩
        · simp [finishAction, finishActionWith, lookupOperation, hopc,
            applyFinishTxn, removeAndLogBuildTxn, hnt, hbr,
            applyOperationOp, hps, readAction]
        · intro hc; simp at hc
      · refine ⟨{ st with
                   actionStatus := fs
                   actionMessage := msg
                   actionResults := res
                   actionCompleted := now
                   notifExists := false
                   operation := some { p with
                     completeTaskCount := countComplete p.taskStatus + 1 } },
          ?_, rfl, rfl, rfl, rfl, rfl, rfl, ?_⟩
        · simp [finishAction, finishActionWith, lookupOperation, hopc,
            applyFinishTxn, removeAndLogBuildTxn, hnt, hbr,
            applyOperationOp, readAction]
        · intro hc; simp at hc

/-! Claim theorems. -/

/-- A running action whose log already holds exactly 1000 entries. -/
def logFullState : StoreState :=
  { actionStatus := .running
    actionStarted := 0
    actionCompleted := 0
    actionMessage := ""
    actionResults := []
    actionLogs := List.replicate 1000 { messageValue := "m", timestampValue := 0 }
    notifExists := true
    operation := none }

theorem logFullState_len : logFullState.actionLogs.length = 1000 := by
  show (List.replicate 1000
    ({ messageValue := "m", timestampValue := 0 } : ActionMessageM)).length = 1000
  rw [List.length_replicate]

/-- C2 counterexample: with exactly 1000 log entries the guard
`len(a.doc.Logs) > 1000` is false, so `Log` appends an 1001st entry — the
log length becomes 1001, not 1000, and the append is not dropped. -/
theorem log_cap_1000_still_appends :
    actionLogStep logFullState "extra" 3 =
      .ok { logFullState with
             actionLogs := logFullState.actionLogs ++
               [{ messageValue := "extra", timestampValue := 3 }] } ∧
    (actionLogStep logFullState "extra" 3).map
        (fun s => s.actionLogs.length) = .ok 1001 ∧
    logFullState.actionLogs.length = 1000 := by
  have h1 : actionLogStep logFullState "extra" 3 =
      .ok { logFullState with
             actionLogs := logFullState.actionLogs ++
               [{ messageValue := "extra", timestampValue := 3 }] } := by
    unfold actionLogStep
    rw [logFullState_len]
    rw [if_neg (by decide)]
    rfl
  refine ⟨h1, ?_, logFullState_len⟩
  rw [h1]
  simp [Except.map, List.length_append, logFullState_len]

/-- C2 (amended): only once the log holds more than 1000 entries (at least
1001) does `Log` append nothing and return no error; the log length stays
as it was, so a log never grows past 1001 entries through `Log`. -/
theorem log_overflow_drop (st : StoreState) (m : String) (t : Nat)
    (h : 1000 < st.actionLogs.length) :
    actionLogStep st m t = .ok st ∧
    (actionLogStep st m t).map (fun s => s.actionLogs.length) =
      .ok st.actionLogs.length := by
  unfold actionLogStep
  simp [h, Except.map]

/-- A running action whose log already holds 1001 entries. -/
def logOverState : StoreState :=
  { logFullState with
     actionLogs :=
       List.replicate 1001 { messageValue := "m", timestampValue := 0 } }

theorem logOverState_len : logOverState.actionLogs.length = 1001 := by
  show (List.replicate 1001
    ({ messageValue := "m", timestampValue := 0 } : ActionMessageM)).length = 1001
  rw [List.length_replicate]

theorem log_overflow_drop_witness :
    1000 < logOverState.actionLogs.length ∧
    actionLogStep logOverState "x" 1 = .ok logOverState :=
  ⟨by rw [logOverState_len]; decide,
   (log_overflow_drop logOverState "x" 1 (by rw [logOverState_len]; decide)).1⟩

/-- C10: `EnqueueAction`'s transaction builder returns the insert
operations only at attempt 0; at any other attempt it always errors —
`ErrDead` if the receiver is no longer alive, the operation lookup's
not-found error if the parent operation is gone, and otherwise the
"unexpected attempt number" error — so an enqueue conflict never
re-submits the insert. A liveness-probe failure is returned as-is. -/
theorem enqueue_no_retry (ops : List EnqTxnOp) (att : Nat) (w : String)
    (e : JujuError) (opLookup : Except JujuError Unit) (hatt : att ≠ 0) :
    enqueueBuildTxn (.ok true) opLookup ops 0 = .ok ops ∧
    enqueueBuildTxn (.ok false) opLookup ops att = .error .errDead ∧
    enqueueBuildTxn (.ok true) (.error (.notFound w)) ops att =
      .error (.notFound w) ∧
    enqueueBuildTxn (.ok true) (.ok ()) ops att =
      .error (.generic ("unexpected attempt number " ++ toString att)) ∧
    (∀ (nd : Except JujuError Bool) (l : List EnqTxnOp),
        enqueueBuildTxn nd opLookup ops att ≠ .ok l) ∧
    enqueueBuildTxn (.error e) opLookup ops att = .error e := by
  refine ⟨rfl, by simp [enqueueBuildTxn], by simp [enqueueBuildTxn, hatt],
    by simp [enqueueBuildTxn, hatt], ?_, rfl⟩
  intro nd l
  cases nd with
  | error e2 => simp [enqueueBuildTxn]
  | ok b =>
      cases b
      · simp [enqueueBuildTxn]
      · cases opLookup <;> simp [enqueueBuildTxn, hatt]

theorem enqueue_no_retry_witness :
    enqueueBuildTxn (.ok true) (.ok ()) [] 0 = .ok [] ∧
    enqueueBuildTxn (.ok false) (.ok ()) [] 2 = .error .errDead ∧
    enqueueBuildTxn (.ok true) (.error (.notFound "operation op1")) [] 2 =
      .error (.notFound "operation op1") ∧
    enqueueBuildTxn (.ok true) (.ok ()) [] 2 =
      .error (.generic ("unexpected attempt number " ++ toString 2)) ∧
    (∀ (nd : Except JujuError Bool) (l : List EnqTxnOp),
        enqueueBuildTxn nd (.ok ()) [] 2 ≠ .ok l) ∧
    enqueueBuildTxn (.error .errDead) (.ok ()) [] 2 = .error .errDead :=
  enqueue_no_retry [] 2 "operation op1" .errDead (.ok ()) (by decide)

/-- C6: the new action's local id comes from the "task" sequence (minimum
1) rendered as a decimal string when the receiver is a unit and the model
agent version is at least 2.6.999 (`IsNewActionIDSupported`), and from a
freshly generated UUID's canonical string otherwise; a sequence or UUID
failure aborts the enqueue with that error. -/
theorem action_id_allocation (seq : String → Nat → Except String Nat)
    (uuid : Except String String) (mu : String) (now : Nat) (opid : String)
    (tg : Tag) (an : String) (ver : VersionNumber) (n : Nat) (u e : String)
    (hkind : tg.kind = TagKind.unit)
    (hver : isNewActionIDSupported ver = true) :
    (seq "task" 1 = .ok n →
      ∃ d nd, newActionDoc seq uuid mu now opid tg an ver = .ok (d, nd) ∧
        d.docId = mkDocID mu (toString n) ∧ nd.actionID = toString n ∧
        d.status = .pending) ∧
    (seq "task" 1 = .error e →
      newActionDoc seq uuid mu now opid tg an ver = .error e) ∧
    (∀ tg2 : Tag, ¬(tg2.kind = TagKind.unit ∧
        isNewActionIDSupported ver = true) →
      (uuid = .ok u →
        ∃ d nd, newActionDoc seq uuid mu now opid tg2 an ver = .ok (d, nd) ∧
          d.docId = mkDocID mu u ∧ nd.actionID = u ∧
          d.status = .pending) ∧
      (uuid = .error e →
        newActionDoc seq uuid mu now opid tg2 an ver = .error e)) ∧
    isNewActionIDSupported minVersionSupportNewActionID = true ∧
    isNewActionIDSupported
      { major := 2, minor := 6, tag := "", patch := 998, build := 0 } =
        false ∧
    isNewActionIDSupported
      { major := 2, minor := 7, tag := "", patch := 0, build := 0 } =
        true := by
  refine ⟨?_, ?_, ?_, by decide, by decide, by decide⟩
  · intro hseq
    have hdoc : newActionDoc seq uuid mu now opid tg an ver =
        .ok ({ docId := mkDocID mu (toString n)
               modelUUID := mu
               receiver := tg.id
               name := an
               enqueued := now
               operation := opid
               status := .pending },
             { docId := mkDocID mu (ensureActionMarker tg.id ++ toString n)
               modelUUID := mu
               receiver := tg.id
               actionID := toString n }) := by
      unfold newActionDoc
      rw [if_pos ⟨hkind, hver⟩, hseq]
    exact ⟨_, _, hdoc, rfl, rfl, rfl⟩
  · intro hseq
    unfold newActionDoc
    rw [if_pos ⟨hkind, hver⟩, hseq]
  · intro tg2 hno
    constructor
    · intro hu
      have hdoc : newActionDoc seq uuid mu now opid tg2 an ver =
          .ok ({ docId := mkDocID mu u
                 modelUUID := mu
                 receiver := tg2.id
                 name := an
                 enqueued := now
                 operation := opid
                 status := .pending },
               { docId := mkDocID mu (ensureActionMarker tg2.id ++ u)
                 modelUUID := mu
                 receiver := tg2.id
                 actionID := u }) := by
        unfold newActionDoc
        rw [if_neg hno, hu]
      exact ⟨_, _, hdoc, rfl, rfl, rfl⟩
    · intro hu
      unfold newActionDoc
      rw [if_neg hno, hu]

theorem action_id_allocation_witness :
    (⟨TagKind.unit, "u/0"⟩ : Tag).kind = TagKind.unit ∧
    isNewActionIDSupported
      { major := 2, minor := 7, tag := "", patch := 0, build := 0 } = true ∧
    ((fun _ _ => Except.ok 7 : String → Nat → Except String Nat) "task" 1 =
        .ok 7 →
      ∃ d nd, newActionDoc (fun _ _ => Except.ok 7) (.ok "u-1") "mu" 3 "op1"
          ⟨TagKind.unit, "u/0"⟩ "restart"
          { major := 2, minor := 7, tag := "", patch := 0, build := 0 } =
            .ok (d, nd) ∧
        d.docId = mkDocID "mu" (toString 7) ∧ nd.actionID = toString 7 ∧
        d.status = .pending) :=
  ⟨rfl, by decide,
   (action_id_allocation (fun _ _ => Except.ok 7) (.ok "u-1") "mu" 3 "op1"
      ⟨TagKind.unit, "u/0"⟩ "restart"
      { major := 2, minor := 7, tag := "", patch := 0, build := 0 }
      7 "u-1" "e" rfl (by decide)).1⟩

/-- C7: `FindActionTagsById` matches stored ids by leading-segment (regex
`^id`) exactly when new-style ids are unsupported or the queried value
contains one of the legacy characters `-abcdef`, and by exact id match
otherwise; every returned tag comes from a local id that passed the
`names.IsValidAction` shape check. -/
theorem find_action_tags_by_id_spec (mu idValue : String)
    (ver : VersionNumber) (docs : List String) (valid : String → Bool)
    (t : String) :
    (isNewActionIDSupported ver = false →
        findFilter mu idValue ver = .byIdRegex (mkDocID mu idValue)) ∧
    (containsAnyLegacyChars idValue = true →
        findFilter mu idValue ver = .byIdRegex (mkDocID mu idValue)) ∧
    (isNewActionIDSupported ver = true →
        containsAnyLegacyChars idValue = false →
        findFilter mu idValue ver = .byIdExact (mkDocID mu idValue)) ∧
    (t ∈ findActionTagsById valid mu docs idValue ver → valid t = true) := by
  refine ⟨?_, ?_, ?_, ?_⟩
  · intro h; simp [findFilter, h]
  · intro h; simp [findFilter, h]
  · intro h1 h2; simp [findFilter, h1, h2]
  · intro ht
    exact (List.mem_filter.mp ht).2

/-- A pending action under a pending single-task operation. -/
def pendingSt : StoreState :=
  { actionStatus := .pending
    actionStarted := 0
    actionCompleted := 0
    actionMessage := ""
    actionResults := []
    actionLogs := []
    notifExists := true
    operation := some { status := .pending
                        started := 0
                        completed := 0
                        completeTaskCount := 0
                        taskStatus := [.pending] } }

/-- A running action with no parent operation document. -/
def runningOrphanSt : StoreState :=
  { actionStatus := .running
    actionStarted := 1
    actionCompleted := 0
    actionMessage := ""
    actionResults := []
    actionLogs := []
    notifExists := true
    operation := none }

/-- A pending action with no parent operation document. -/
def pendingOrphanSt : StoreState :=
  { pendingSt with operation := none }

/-- C4: `Begin` asserts the action is Pending and, in one transaction,
sets it Running and stamps `Started`; when the parent operation exists and
is still Pending the same transaction also sets it Running with `Started`;
a non-Pending parent (or no parent) is left alone; on success the re-read
(refreshed) action is returned; and against any store state whose action
is not Pending, the transaction's assertion fails and nothing is applied. -/
theorem begin_pending_to_running (st q : StoreState) (now : Nat)
    (hpend : st.actionStatus = .pending)
    (hq : q.actionStatus ≠ .pending) :
    (∃ st2, beginAction st now = .ok (st2, readAction st2) ∧
      st2.actionStatus = .running ∧ st2.actionStarted = now ∧
      st2.notifExists = st.notifExists ∧ st2.actionLogs = st.actionLogs ∧
      (∀ o, st.operation = some o → o.status = .pending →
          st2.operation = some { o with status := .running, started := now }) ∧
      (∀ o, st.operation = some o → o.status ≠ .pending →
          st2.operation = st.operation) ∧
      (st.operation = none → st2.operation = none)) ∧
    applyBeginTxn q (beginBuildTxn st.operation now) = none := by
  constructor
  · obtain ⟨st2, hb, h1, h2, h3, h4, _, _, _, h5, h6, h7⟩ :=
      beginAction_spec st now hpend
    exact ⟨st2, hb, h1, h2, h4, h3, h5, h6, h7⟩
  · simp [applyBeginTxn, hq]

theorem begin_pending_to_running_witness :
    pendingSt.actionStatus = .pending ∧
    runningOrphanSt.actionStatus ≠ .pending ∧
    ((∃ st2, beginAction pendingSt 9 = .ok (st2, readAction st2) ∧
      st2.actionStatus = .running ∧ st2.actionStarted = 9 ∧
      st2.notifExists = pendingSt.notifExists ∧
      st2.actionLogs = pendingSt.actionLogs ∧
      (∀ o, pendingSt.operation = some o → o.status = .pending →
          st2.operation = some { o with status := .running, started := 9 }) ∧
      (∀ o, pendingSt.operation = some o → o.status ≠ .pending →
          st2.operation = pendingSt.operation) ∧
      (pendingSt.operation = none → st2.operation = none)) ∧
    applyBeginTxn runningOrphanSt (beginBuildTxn pendingSt.operation 9) =
      none) :=
  ⟨rfl, by decide,
   begin_pending_to_running pendingSt runningOrphanSt 9 rfl (by decide)⟩

/-- C9: an unknown action id yields a distinguished not-found error while
other store errors come back annotated (not not-found); and `Begin` and
`Finish` tolerate a not-found parent operation — they proceed and touch
only the action's own documents — while any other parent-lookup error
aborts them. -/
theorem not_found_signalling (w e : String) (je : JujuError)
    (st1 st2 : StoreState) (now nowf : Nat) (fs : ActionStatus)
    (res : List (String × String)) (msg : String)
    (h1 : st1.actionStatus = .pending) (hn1 : st1.operation = none)
    (h2 : notInTerminalSet st2.actionStatus = true)
    (hn2 : st2.operation = none) (hje : isNotFoundErr je = false) :
    modelAction (.ok none) w =
      .error (.notFound ("action " ++ w ++ " not found")) ∧
    isNotFoundErr (JujuError.notFound ("action " ++ w ++ " not found")) =
      true ∧
    modelAction (.error e) w =
      .error (.annotated ("cannot get action " ++ w) e) ∧
    isNotFoundErr (JujuError.annotated ("cannot get action " ++ w) e) =
      false ∧
    (∃ stb, beginAction st1 now = .ok (stb, readAction stb) ∧
        stb.operation = none ∧ stb.notifExists = st1.notifExists) ∧
    (∃ stf, finishAction st2 fs res msg nowf = .ok (stf, readAction stf) ∧
        stf.operation = none) ∧
    beginActionWith (.error je) st1 now = .error je ∧
    finishActionWith (.error je) st2 fs res msg nowf = .error je := by
  refine ⟨rfl, rfl, rfl, rfl, ?_, ?_, ?_, ?_⟩
  · obtain ⟨stb, hb, _, _, _, hnotif, _, _, _, _, _, hnone⟩ :=
      beginAction_spec st1 now h1
    exact ⟨stb, hb, hnone hn1, hnotif⟩
  · obtain ⟨stf, hf, _, _, _, _, _, _, hnone⟩ :=
      finishAction_spec st2 fs res msg nowf h2
        (fun o ho => by rw [hn2] at ho; cases ho)
    exact ⟨stf, hf, hnone hn2⟩
  · simp [beginActionWith, hje]
  · simp [finishActionWith, hje]

theorem not_found_signalling_witness :
    pendingOrphanSt.actionStatus = .pending ∧
    notInTerminalSet runningOrphanSt.actionStatus = true ∧
    isNotFoundErr (JujuError.generic "boom") = false ∧
    (modelAction (.ok none) "1" =
      .error (.notFound ("action " ++ "1" ++ " not found")) ∧
    isNotFoundErr (JujuError.notFound ("action " ++ "1" ++ " not found")) =
      true ∧
    modelAction (.error "io") "1" =
      .error (.annotated ("cannot get action " ++ "1") "io") ∧
    isNotFoundErr (JujuError.annotated ("cannot get action " ++ "1") "io") =
      false ∧
    (∃ stb, beginAction pendingOrphanSt 4 = .ok (stb, readAction stb) ∧
        stb.operation = none ∧ stb.notifExists = pendingOrphanSt.notifExists) ∧
    (∃ stf, finishAction runningOrphanSt .completed [] "" 5 =
        .ok (stf, readAction stf) ∧ stf.operation = none) ∧
    beginActionWith (.error (.generic "boom")) pendingOrphanSt 4 =
      .error (.generic "boom") ∧
    finishActionWith (.error (.generic "boom")) runningOrphanSt .completed
        [] "" 5 = .error (.generic "boom")) :=
  ⟨rfl, by decide, by decide,
   not_found_signalling "1" "io" (.generic "boom") pendingOrphanSt
     runningOrphanSt 4 5 .completed [] "" rfl rfl (by decide) rfl
     (by decide)⟩

/-- C8: `Log` on an action that is not Running (with at most 1000 logged
entries, so the overflow drop does not fire) returns a descriptive error
and appends nothing; on a retried attempt the transaction is built from
the re-fetched action, so the originally loaded action is irrelevant; and
the committed append is guarded by an assertion that the stored status is
still Running. -/
theorem log_non_running_error (st : StoreState) (m : String) (t : Nat)
    (fetch : Nat → Except JujuError StoreState) (orig orig2 : StoreState)
    (att : Nat) (q : StoreState)
    (hlen : st.actionLogs.length ≤ 1000)
    (hst : st.actionStatus ≠ .running)
    (hatt : 0 < att)
    (hq : q.actionStatus ≠ .running) :
    actionLogStep st m t =
      .error (.generic ("cannot log message to task with status " ++
        statusStr st.actionStatus)) ∧
    logBuildTxn fetch orig m t att = logBuildTxn fetch orig2 m t att ∧
    applyLogTxn q (m, t) = none := by
  refine ⟨?_, ?_, ?_⟩
  · have hno : ¬ st.actionLogs.length > 1000 := by omega
    simp [actionLogStep, logBuildTxn, hno, hst]
  · simp [logBuildTxn, hatt]
  · simp [applyLogTxn, hq]

theorem log_non_running_error_witness :
    pendingOrphanSt.actionLogs.length ≤ 1000 ∧
    pendingOrphanSt.actionStatus ≠ .running ∧
    (0 : Nat) < 1 ∧
    (actionLogStep pendingOrphanSt "hi" 2 =
      .error (.generic ("cannot log message to task with status " ++
        statusStr pendingOrphanSt.actionStatus)) ∧
    logBuildTxn (fun _ => .ok runningOrphanSt) pendingOrphanSt "hi" 2 1 =
      logBuildTxn (fun _ => .ok runningOrphanSt) runningOrphanSt "hi" 2 1 ∧
    applyLogTxn pendingOrphanSt ("hi", 2) = none) :=
  ⟨by decide, by decide, by decide,
   log_non_running_error pendingOrphanSt "hi" 2
     (fun _ => .ok runningOrphanSt) pendingOrphanSt runningOrphanSt 1
     pendingOrphanSt (by decide) (by decide) (by decide) (by decide)⟩

theorem newActionDoc_status (seq : String → Nat → Except String Nat)
    (uuid : Except String String) (mu : String) (now : Nat) (opid : String)
    (tg : Tag) (an : String) (ver : VersionNumber) (d : ActionDocG)
    (nd : ActionNotificationDoc)
    (h : newActionDoc seq uuid mu now opid tg an ver = .ok (d, nd)) :
    d.status = .pending := by
  unfold newActionDoc at h
  split at h
  · cases hs : seq "task" 1 with
    | error e => rw [hs] at h; exact absurd h (by simp)
    | ok n =>
        rw [hs] at h
        dsimp only at h
        injection h with hpair
        injection hpair with hd hnd
        subst hd
        rfl
  · cases hu : uuid with
    | error e => rw [hu] at h; exact absurd h (by simp)
    | ok u =>
        rw [hu] at h
        dsimp only at h
        injection h with hpair
        injection hpair with hd hnd
        subst hd
        rfl

/-- C5: `Finish` asserts the action's status is not one of the three
terminal statuses — so a second `Finish` on an already-terminal action
fails with no change applied — and in one atomic transaction sets the
action's status, message, results and `Completed` stamp and removes the
notification record; notification records are created with pending actions
at enqueue and removed at `Finish`, so a record exists exactly while the
action is not yet terminal (the invariant holds after enqueue and is
preserved by `Begin` and by a successful `Finish`). -/
theorem finish_terminal_and_notification (st : StoreState)
    (fs : ActionStatus) (res : List (String × String)) (msg : String)
    (now : Nat) (seq : String → Nat → Except String Nat)
    (uuid : Except String String) (mu : String) (enqNow : Nat)
    (opid : String) (tg : Tag) (an : String) (ver : VersionNumber)
    (d : ActionDocG) (nd : ActionNotificationDoc)
    (opS : Option OperationState)
    (hfs : isTerminalStatus fs = true) :
    (notInTerminalSet st.actionStatus = false →
        finishAction st fs res msg now =
          .error (.generic "state changing too quickly; try again soon") ∧
        applyFinishTxn st
          (removeAndLogBuildTxn st.operation fs res msg now) = none) ∧
    (notInTerminalSet st.actionStatus = true →
      (∀ o, st.operation = some o → notInTerminalSet o.status = true) →
      ∃ st2, finishAction st fs res msg now = .ok (st2, readAction st2) ∧
        st2.actionStatus = fs ∧ st2.actionMessage = msg ∧
        st2.actionResults = res ∧ st2.actionCompleted = now ∧
        st2.notifExists = false ∧ notifLifecycleInv st2) ∧
    (newActionDoc seq uuid mu enqNow opid tg an ver = .ok (d, nd) →
        notifLifecycleInv (stateFromEnqueue d opS)) ∧
    (st.actionStatus = .pending → notifLifecycleInv st →
        ∃ st2 v, beginAction st now = .ok (st2, v) ∧
          notifLifecycleInv st2) := by
  refine ⟨?_, ?_, ?_, ?_⟩
  · intro h
    have happ : ∀ txn, applyFinishTxn st txn = none := by
      intro txn; simp [applyFinishTxn, h]
    refine ⟨?_, happ _⟩
    cases hopc : st.operation with
    | none =>
        simp [finishAction, finishActionWith, lookupOperation, hopc,
          isNotFoundErr, happ]
    | some o =>
        simp [finishAction, finishActionWith, lookupOperation, hopc, happ]
  · intro hnt hop
    obtain ⟨st2, hf, h1, h2, h3, h4, h5, _, _⟩ :=
      finishAction_spec st fs res msg now hnt hop
    refine ⟨st2, hf, h1, h2, h3, h4, h5, ?_⟩
    unfold notifLifecycleInv
    rw [h5, h1, hfs]
    simp
  · intro h
    have hd := newActionDoc_status seq uuid mu enqNow opid tg an ver d nd h
    unfold notifLifecycleInv stateFromEnqueue
    rw [hd]
    simp [isTerminalStatus]
  · intro hpend hinv
    obtain ⟨st2, hb, h1, _, _, hnotif, _, _, _, _, _, _⟩ :=
      beginAction_spec st now hpend
    refine ⟨st2, readAction st2, hb, ?_⟩
    unfold notifLifecycleInv at hinv ⊢
    rw [hnotif, h1]
    rw [hpend] at hinv
    simpa [isTerminalStatus] using hinv

theorem finish_terminal_and_notification_witness :
    isTerminalStatus .completed = true ∧
    ((notInTerminalSet runningOrphanSt.actionStatus = false →
        finishAction runningOrphanSt .completed [] "" 7 =
          .error (.generic "state changing too quickly; try again soon") ∧
        applyFinishTxn runningOrphanSt
          (removeAndLogBuildTxn runningOrphanSt.operation .completed [] ""
            7) = none) ∧
    (notInTerminalSet runningOrphanSt.actionStatus = true →
      (∀ o, runningOrphanSt.operation = some o →
          notInTerminalSet o.status = true) →
      ∃ st2, finishAction runningOrphanSt .completed [] "" 7 =
          .ok (st2, readAction st2) ∧
        st2.actionStatus = .completed ∧ st2.actionMessage = "" ∧
        st2.actionResults = [] ∧ st2.actionCompleted = 7 ∧
        st2.notifExists = false ∧ notifLifecycleInv st2) ∧
    (newActionDoc (fun _ _ => Except.ok 7) (.ok "u-1") "mu" 3 "op1"
        ⟨TagKind.unit, "u/0"⟩ "restart"
        { major := 2, minor := 7, tag := "", patch := 0, build := 0 } =
          .ok ({ docId := mkDocID "mu" "7"
                 modelUUID := "mu"
                 receiver := "u/0"
                 name := "restart"
                 enqueued := 3
                 operation := "op1"
                 status := .pending },
               { docId := mkDocID "mu" ("u/0_a_" ++ "7")
                 modelUUID := "mu"
                 receiver := "u/0"
                 actionID := "7" }) →
        notifLifecycleInv (stateFromEnqueue
          { docId := mkDocID "mu" "7"
            modelUUID := "mu"
            receiver := "u/0"
            name := "restart"
            enqueued := 3
            operation := "op1"
            status := .pending } none)) ∧
    (runningOrphanSt.actionStatus = .pending →
        notifLifecycleInv runningOrphanSt →
        ∃ st2 v, beginAction runningOrphanSt 7 = .ok (st2, v) ∧
          notifLifecycleInv st2)) :=
  ⟨by decide,
   finish_terminal_and_notification runningOrphanSt .completed [] "" 7
     (fun _ _ => Except.ok 7) (.ok "u-1") "mu" 3 "op1"
     ⟨TagKind.unit, "u/0"⟩ "restart"
     { major := 2, minor := 7, tag := "", patch := 0, build := 0 }
     { docId := mkDocID "mu" "7"
       modelUUID := "mu"
       receiver := "u/0"
       name := "restart"
       enqueued := 3
       operation := "op1"
       status := .pending }
     { docId := mkDocID "mu" ("u/0_a_" ++ "7")
       modelUUID := "mu"
       receiver := "u/0"
       actionID := "7" }
     none (by decide)⟩

/-- C1: when the finishing action is the last outstanding child (every
other task already counts as complete), `removeAndLog` promotes the parent
operation with the first status of `statusCompletedOrder` present in the
set of all the children's final statuses together with the status being
applied; in particular two children finishing Failed then Completed leave
the operation Failed, not Completed. -/
theorem operation_status_aggregation (p : OperationState)
    (fs : ActionStatus) (res : List (String × String)) (msg : String)
    (ct : Nat)
    (hlast : (countComplete p.taskStatus : Int) =
      (p.taskStatus.length : Int) - 1)
    (hfs : isTerminalStatus fs = true) :
    (∃ σ, statusCompletedOrder.find?
        (fun s => decide (s ∈ fs :: p.taskStatus.filter
          (fun x => isTerminalStatus x))) = some σ ∧
      (removeAndLogBuildTxn (some p) fs res msg ct).opUpdate =
        some (.completeOp σ ct (countComplete p.taskStatus + 1))) ∧
    (removeAndLogBuildTxn
        (some { status := .running
                started := 0
                completed := 0
                completeTaskCount := 1
                taskStatus := [.failed, .running] })
        .completed [] "" ct).opUpdate =
      some (.completeOp .failed ct 2) := by
  constructor
  · have hmem := mem_statusCompletedOrder_of_terminal fs hfs
    have hpred : (fun s => decide (s ∈ fs :: p.taskStatus.filter
        (fun x => isTerminalStatus x))) fs = true := by simp
    obtain ⟨σ, hσ⟩ := find?_isSome_of_mem
      (fun s => decide (s ∈ fs :: p.taskStatus.filter
        (fun x => isTerminalStatus x)))
      statusCompletedOrder fs hmem hpred
    refine ⟨σ, hσ, ?_⟩
    simp only [removeAndLogBuildTxn]
    rw [if_pos hlast]
    rw [aggregate_scan_eq fs p.taskStatus, hσ]
    rfl
  · rfl

theorem operation_status_aggregation_witness :
    (countComplete ([.failed, .running] : List ActionStatus) : Int) =
      (([.failed, .running] : List ActionStatus).length : Int) - 1 ∧
    isTerminalStatus .completed = true ∧
    ((∃ σ, statusCompletedOrder.find?
        (fun s => decide (s ∈ ActionStatus.completed ::
          ([.failed, .running] : List ActionStatus).filter
            (fun x => isTerminalStatus x))) = some σ ∧
      (removeAndLogBuildTxn
          (some { status := .running
                  started := 0
                  completed := 0
                  completeTaskCount := 1
                  taskStatus := [.failed, .running] })
          .completed [] "" 5).opUpdate =
        some (.completeOp σ 5 (countComplete [.failed, .running] + 1))) ∧
    (removeAndLogBuildTxn
        (some { status := .running
                started := 0
                completed := 0
                completeTaskCount := 1
                taskStatus := [.failed, .running] })
        .completed [] "" 5).opUpdate =
      some (.completeOp .failed 5 2)) :=
  ⟨by decide, by decide,
   operation_status_aggregation
     { status := .running
       started := 0
       completed := 0
       completeTaskCount := 1
       taskStatus := [.failed, .running] }
     .completed [] "" 5 (by decide) (by decide)⟩

/-- C3: when the finishing action is not the last outstanding child,
`removeAndLog` only advances the parent's complete-task count, writing
`numComplete+1` under an assertion that the stored counter still equals
the snapshot's `CompleteTaskCount`; with a consistent snapshot the applied
update advances the stored counter by exactly one and keeps it at most the
total task count; a second transaction built from the same snapshot then
fails its counter assertion (a concurrent sibling forces a retry), and
after one transaction promotes the operation to a terminal status, a
second promotion fails the not-complete assertion — exactly one writer
performs the final promotion. -/
theorem complete_task_count_advance (p q : OperationState)
    (fs σ : ActionStatus) (res : List (String × String)) (msg : String)
    (ct n2 : Nat)
    (hsnap : p.completeTaskCount = countComplete p.taskStatus)
    (hnotlast : (countComplete p.taskStatus : Int) ≠
      (p.taskStatus.length : Int) - 1)
    (hassert : q.completeTaskCount = p.completeTaskCount)
    (hlt : countComplete p.taskStatus < p.taskStatus.length)
    (hσ : isTerminalStatus σ = true)
    (hq : notInTerminalSet q.status = true) :
    (removeAndLogBuildTxn (some p) fs res msg ct).opUpdate =
      some (.bumpCount p.completeTaskCount
        (countComplete p.taskStatus + 1)) ∧
    applyOperationOp q (.bumpCount p.completeTaskCount
        (countComplete p.taskStatus + 1)) =
      some { q with completeTaskCount := q.completeTaskCount + 1 } ∧
    q.completeTaskCount + 1 ≤ p.taskStatus.length ∧
    applyOperationOp { q with completeTaskCount := q.completeTaskCount + 1 }
        (.bumpCount p.completeTaskCount
          (countComplete p.taskStatus + 1)) = none ∧
    applyOperationOp q (.completeOp σ ct n2) =
      some { q with
              status := σ
              completed := ct
              completeTaskCount := n2 } ∧
    applyOperationOp { q with
        status := σ
        completed := ct
        completeTaskCount := n2 } (.completeOp fs ct n2) = none := by
  have hqc : q.completeTaskCount = countComplete p.taskStatus :=
    hassert.trans hsnap
  refine ⟨?_, ?_, by omega, ?_, ?_, ?_⟩
  · simp only [removeAndLogBuildTxn]
    rw [if_neg hnotlast]
  · simp only [applyOperationOp]
    rw [if_pos hassert, hqc]
  · have hne : ¬ (q.completeTaskCount + 1 = p.completeTaskCount) := by
      omega
    simp [applyOperationOp, hne]
  · simp only [applyOperationOp]
    rw [if_pos hq]
  · have hns : notInTerminalSet σ = false := by
      rw [notInTerminalSet_eq, hσ]
      rfl
    simp [applyOperationOp, hns]

theorem complete_task_count_advance_witness :
    (let p : OperationState :=
      { status := .running
        started := 0
        completed := 0
        completeTaskCount := 1
        taskStatus := [.failed, .running, .running] };
    p.completeTaskCount = countComplete p.taskStatus ∧
    (countComplete p.taskStatus : Int) ≠ (p.taskStatus.length : Int) - 1 ∧
    isTerminalStatus .completed = true ∧
    notInTerminalSet p.status = true ∧
    ((removeAndLogBuildTxn (some p) .completed [] "" 8).opUpdate =
      some (.bumpCount p.completeTaskCount
        (countComplete p.taskStatus + 1)) ∧
    applyOperationOp p (.bumpCount p.completeTaskCount
        (countComplete p.taskStatus + 1)) =
      some { p with completeTaskCount := p.completeTaskCount + 1 } ∧
    p.completeTaskCount + 1 ≤ p.taskStatus.length ∧
    applyOperationOp { p with completeTaskCount := p.completeTaskCount + 1 }
        (.bumpCount p.completeTaskCount
          (countComplete p.taskStatus + 1)) = none ∧
    applyOperationOp p (.completeOp .completed 8 3) =
      some { p with
              status := .completed
              completed := 8
              completeTaskCount := 3 } ∧
    applyOperationOp { p with
        status := .completed
        completed := 8
        completeTaskCount := 3 } (.completeOp .completed 8 3) = none)) :=
  ⟨by decide, by decide, by decide, by decide,
   complete_task_count_advance
     { status := .running
       started := 0
       completed := 0
       completeTaskCount := 1
       taskStatus := [.failed, .running, .running] }
     { status := .running
       started := 0
       completed := 0
       completeTaskCount := 1
       taskStatus := [.failed, .running, .running] }
     .completed .completed [] "" 8 3 (by decide) (by decide) rfl
     (by decide) (by decide) (by decide)⟩
